import Mathlib

/-!
Shallow embedding of the Lamport-clock simulation machine
(`src/src/prior/prior_distributed_machine.py`, near-duplicated by
`src/preliminary_work/driver.py`).

Modelling conventions:
* Bytes on the wire are modelled as `List Char`; the protocol is ASCII, so the
  UTF-8 decode step never fails on well-formed traffic and is the identity here.
* Python's unbounded non-negative ints (the clock starts at 0 and only grows)
  are modelled as `Nat`.
* `int(s)` on the strings this protocol produces (plain decimal numerals) is
  modelled by `parseDigits`; Python's extra tolerances (signs, underscores,
  inner whitespace) never occur on this wire and are not modelled.
* Wall-clock timestamps, stderr text and the free-text log note are real-time /
  formatting facets that no claim depends on; log records keep the event kind,
  the clock value at emission time, and the optional queue depth.
* Randomness (`random.randint(1, 10)` and `random.choice`) is modelled by
  passing each tick its drawn branch value `r` and a peer-choice index.
-/

namespace LamportSim

/-! ### Wire codec: `send_message` encodes `f"{clock}:{machine_id}"`,
`receive_messages` decodes via `.strip()`, `.split(":")`, `int(parts[0])`. -/

/-- The ASCII character of a decimal digit `d < 10`. -/
def digitToChar (d : Nat) : Char := Char.ofNat (48 + d)

/-- Decimal digit characters of `n`, most significant first, by fuel-bounded
division; `toCharsAux n n` is correct because a number has at most `n` digits. -/
def toCharsAux : Nat → Nat → List Char
  | 0, _ => []
  | _ + 1, 0 => []
  | fuel + 1, n + 1 => toCharsAux fuel ((n + 1) / 10) ++ [digitToChar ((n + 1) % 10)]

/-- Python's `str(n)` for a non-negative int: decimal numeral, `"0"` for zero. -/
def natToChars (n : Nat) : List Char := if n = 0 then ['0'] else toCharsAux n n

/-- `send_message`'s payload `f"{self.logical_clock}:{self.machine_id}"`. -/
def encodeRecord (clock mid : Nat) : List Char := natToChars clock ++ ':' :: natToChars mid

/-- Numeric value of a digit character. -/
def charVal (c : Char) : Nat := c.toNat - 48

/-- `int(s)` on a plain decimal numeral: fails on the empty string or any
non-digit character, otherwise folds up the decimal value. -/
def parseDigits (l : List Char) : Option Nat :=
  if l.isEmpty then none
  else if l.all Char.isDigit then some (l.foldl (fun a c => 10 * a + charVal c) 0)
  else none

/-- Python `str.strip()`: drop whitespace from both ends. -/
def pyStrip (l : List Char) : List Char :=
  ((l.dropWhile Char.isWhitespace).reverse.dropWhile Char.isWhitespace).reverse

/-- `msg_str.split(":")[0]`: the prefix before the first `':'`
(the whole string when there is no `':'`). -/
def firstField (l : List Char) : List Char := l.takeWhile (fun c => !(c == ':'))

/-- The decode path of `receive_messages`:
`their_clock = int(data.decode("utf-8").strip().split(":")[0])`,
`none` when `int` raises. -/
def decodeClock (data : List Char) : Option Nat := parseDigits (firstField (pyStrip data))

/-! ### Clock (spec §4.1): the Lamport update rule, inlined in `Machine.run` as
`self.logical_clock = max(self.logical_clock, their_clock) + 1` and
`self.logical_clock += 1`. -/

/-- `receive(theirValue)`: `max(current, theirValue) + 1`. -/
def Clock.receive (c v : Nat) : Nat := max c v + 1

/-- `advanceLocal()`: `current + 1`. -/
def Clock.advanceLocal (c : Nat) : Nat := c + 1

/-! ### Peer sockets and the machine state -/

/-- An outbound peer socket: whether the TCP endpoint is still alive, the
payloads successfully written to it (`sock.sendall`), and whether this end has
been closed. -/
structure Socket where
  alive : Bool
  sent : List (List Char)
  closed : Bool
deriving DecidableEq, Repr

/-- `Machine.send_message`: writes `f"{clock}:{machine_id}"` with `sendall`;
a raised exception (dead socket) is caught and printed to stderr. Returns the
updated socket and whether the error path was taken. -/
def send_message (clock mid : Nat) (s : Socket) : Socket × Bool :=
  if s.alive then ({ s with sent := s.sent ++ [encodeRecord clock mid] }, false)
  else (s, true)

/-- The event kinds written by `log_event`. -/
inductive EventKind
  | INIT
  | RECEIVE
  | SEND1
  | SEND2
  | SEND3
  | INTERNAL
  | SHUTDOWN
deriving DecidableEq, Repr

/-- One line of `log_event`: event kind, `L=<logical_clock>` at emission time,
and the optional `queue=<len>` field (wall-clock time and the free-text note
are omitted, see the header). -/
structure LogRecord where
  kind : EventKind
  clockValue : Nat
  queueLen : Option Nat
deriving DecidableEq, Repr

/-- The mutable state of one `Machine`: its id, the Lamport clock, the inbound
queue contents (front first), the outbound peer sockets in `peer_sockets`
iteration order, the log lines written so far, the number of swallowed send
errors printed to stderr, and the closed flags of the log file and the server
socket. -/
structure MachineState where
  machineId : Nat
  logicalClock : Nat
  msgQueue : List Nat
  peerSockets : List Socket
  log : List LogRecord
  errors : Nat
  logClosed : Bool
  serverClosed : Bool
deriving DecidableEq, Repr

/-- `Machine.log_event`: append one record carrying the current clock value. -/
def log_event (k : EventKind) (ql : Option Nat) (st : MachineState) : MachineState :=
  { st with log := st.log ++ [⟨k, st.logicalClock, ql⟩] }

/-- Send the current clock to the socket at index `i` (the others untouched),
accumulating a swallowed error when that socket is dead. -/
def sendAt (clock mid : Nat) : Nat → List Socket → Nat → List Socket × Nat
  | _, [], errs => ([], errs)
  | 0, s :: rest, errs =>
    ((send_message clock mid s).1 :: rest,
      errs + (if (send_message clock mid s).2 then 1 else 0))
  | i + 1, s :: rest, errs =>
    ((s :: (sendAt clock mid i rest errs).1), (sendAt clock mid i rest errs).2)

/-- `for sock in self.peer_sockets.values(): self.send_message(sock)`:
send the current clock to every peer socket in order. -/
def sendAll (clock mid : Nat) : List Socket → Nat → List Socket × Nat
  | [], errs => ([], errs)
  | s :: rest, errs =>
    ((send_message clock mid s).1 ::
        (sendAll clock mid rest (errs + if (send_message clock mid s).2 then 1 else 0)).1,
      (sendAll clock mid rest (errs + if (send_message clock mid s).2 then 1 else 0)).2)

/-- One iteration of `Machine.run`'s while loop (spec §4.6). `r` is the value
of `random.randint(1, 10)` drawn when the inbound queue is empty; `choice` is
the index `random.choice` picks in the SEND(1) branch. The tick-rate sleep is
real time and not modelled. -/
def tick (r choice : Nat) (st : MachineState) : MachineState :=
  match st.msgQueue with
  | theirClock :: rest =>
    log_event .RECEIVE (some rest.length)
      { st with logicalClock := Clock.receive st.logicalClock theirClock, msgQueue := rest }
  | [] =>
    if r = 1 then
      let c := st.logicalClock + 1
      let st1 :=
        if st.peerSockets.isEmpty then { st with logicalClock := c }
        else
          let res := sendAt c st.machineId (choice % st.peerSockets.length) st.peerSockets st.errors
          { st with logicalClock := c, peerSockets := res.1, errors := res.2 }
      log_event .SEND1 none st1
    else if r = 2 then
      let c := st.logicalClock + 1
      let st1 :=
        if 2 ≤ st.peerSockets.length then
          let res := sendAt c st.machineId (1 % st.peerSockets.length) st.peerSockets st.errors
          { st with logicalClock := c, peerSockets := res.1, errors := res.2 }
        else if st.peerSockets.isEmpty then { st with logicalClock := c }
        else
          let res := sendAt c st.machineId 0 st.peerSockets st.errors
          { st with logicalClock := c, peerSockets := res.1, errors := res.2 }
      log_event .SEND2 none st1
    else if r = 3 then
      let c := st.logicalClock + 1
      let res := sendAll c st.machineId st.peerSockets st.errors
      log_event .SEND3 none
        { st with logicalClock := c, peerSockets := res.1, errors := res.2 }
    else
      log_event .INTERNAL none { st with logicalClock := st.logicalClock + 1 }

/-- The ticks the duration-bounded while loop executes, given the finite
schedule of random draws (one `(r, choice)` pair per iteration). -/
def runTicks (draws : List (Nat × Nat)) (st : MachineState) : MachineState :=
  draws.foldl (fun s rc => tick rc.1 rc.2 s) st

/-- `Machine.shutdown`: log SHUTDOWN, close the log file, the server socket
and every peer socket. -/
def shutdown (st : MachineState) : MachineState :=
  let st1 := log_event .SHUTDOWN none st
  { st1 with
    logClosed := true
    serverClosed := true
    peerSockets := st1.peerSockets.map (fun s => { s with closed := true }) }

/-- `Machine.run`: the while loop until the run duration elapses, then
`self.shutdown()`; no tick follows the shutdown. -/
def run (draws : List (Nat × Nat)) (st : MachineState) : MachineState :=
  shutdown (runTicks draws st)

/-! ### Peer Registry: `Machine.connect_to_peers`
(the retrying version, `src/src/prior/prior_distributed_machine.py:57`). -/

/-- `max_retries = 5`. -/
def max_retries : Nat := 5

/-- The attempt numbers `1, 2, ..., max_retries` of the retry for-loop. -/
def attemptNumbers : List Nat := (List.range max_retries).map (· + 1)

/-- The retry loop for one peer: `succeeds k` tells whether the TCP connect
succeeds on attempt `k`; the loop stops at the first success (returning that
attempt number) and gives up after `max_retries` failures (returning `none`,
with the exception caught each time, never propagated). The 1-second
`time.sleep` between attempts is real time and not modelled. -/
def tryConnect (succeeds : Nat → Bool) : Option Nat :=
  attemptNumbers.find? succeeds

/-- `Machine.connect_to_peers`: for each configured `(host, port)` peer, skip
it when it equals our own listen address, otherwise run the retry loop and
keep the peer in `peer_sockets` exactly when some attempt connected. Returns
the addresses holding a usable outbound connection. -/
def connect_to_peers (selfHost : String) (selfPort : Nat)
    (env : String × Nat → Nat → Bool) (peer_info : List (String × Nat)) :
    List (String × Nat) :=
  peer_info.filter (fun p =>
    !(p.1 == selfHost && p.2 == selfPort) && (tryConnect (env p)).isSome)

/-! ### Receive Worker: `Machine.receive_messages` -/

/-- How the worker's read loop exited: a zero-length read (peer closed the
connection) or an exception while decoding (`int` raised). -/
inductive WorkerExit
  | peerClosed
  | decodeError
deriving DecidableEq, Repr

/-- What a terminated receive worker did: the clock values pushed onto
`msg_queue` in order, how the loop exited, and how many times `sock.close()`
ran (the single statement after the loop). -/
structure WorkerResult where
  pushed : List Nat
  exit : WorkerExit
  closes : Nat
deriving DecidableEq, Repr

/-- `Machine.receive_messages` over the finite sequence of values `sock.recv`
returns: a zero-length read breaks the loop (peer closed); a read whose first
field does not parse breaks the loop (exception caught); otherwise the parsed
clock value is pushed and the loop continues. `none` means the finite read
sequence was exhausted with the loop still blocked in `recv` awaiting data. -/
def receive_messages : List (List Char) → Option WorkerResult
  | [] => none
  | data :: rest =>
    if data.isEmpty then some ⟨[], .peerClosed, 1⟩
    else
      match decodeClock data with
      | some v =>
        match receive_messages rest with
        | some res => some ⟨v :: res.pushed, res.exit, res.closes⟩
        | none => none
      | none => some ⟨[], .decodeError, 1⟩

/-! ### Concrete sample data (used by the closed witness statements) -/

/-- An environment in which the peer starts listening at the 3rd attempt. -/
def envLate (_p : String × Nat) (k : Nat) : Bool := decide (3 ≤ k)

/-- An environment in which the peer never listens. -/
def envNever (_p : String × Nat) (_k : Nat) : Bool := false

/-- A sample configured peer address. -/
def peerA : String × Nat := ("127.0.0.1", 5002)

/-- Two records, `17:2` and `18:2`, landing in a single `recv` read. -/
def mergedRead : List Char := encodeRecord 17 2 ++ encodeRecord 18 2

/-- A live outbound socket with nothing sent yet. -/
def liveSock : Socket := ⟨true, [], false⟩

/-- A dead outbound socket (the peer's endpoint has failed). -/
def deadSock : Socket := ⟨false, [], false⟩

/-- Machine 1 freshly started: clock 0, empty queue, no peers. -/
def stA : MachineState := ⟨1, 0, [], [], [], 0, false, false⟩

/-- Machine 1 with clock 5 and one queued inbound value 7. -/
def stB : MachineState := ⟨1, 5, [7], [], [], 0, false, false⟩

/-- Machine 1 with two live peer connections. -/
def stC : MachineState := ⟨1, 0, [], [liveSock, liveSock], [], 0, false, false⟩

/-- Machine 2 with clock 3 and a single dead peer connection. -/
def stD : MachineState := ⟨2, 3, [], [deadSock], [], 0, false, false⟩

/-- The number of SHUTDOWN records in a log. -/
def shutdownCount (l : List LogRecord) : Nat :=
  (l.filter (fun rec => rec.kind == EventKind.SHUTDOWN)).length

/-! ### Codec round-trip lemmas -/

theorem toCharsAux_eq (fuel : Nat) :
    ∀ n : Nat, n ≤ fuel → toCharsAux fuel n = ((Nat.digits 10 n).map digitToChar).reverse := by
  induction fuel with
  | zero =>
    intro n hn
    interval_cases n
    simp [toCharsAux]
  | succ fuel ih =>
    intro n hn
    match n with
    | 0 => simp [toCharsAux]
    | m + 1 =>
      have hdiv : (m + 1) / 10 ≤ fuel := by
        have h1 : (m + 1) / 10 < m + 1 := Nat.div_lt_self (Nat.succ_pos m) (by norm_num)
        omega
      rw [toCharsAux, ih _ hdiv,
        Nat.digits_def' (by norm_num : (1 : Nat) < 10) (Nat.succ_pos m)]
      simp

theorem natToChars_eq (n : Nat) (hn : n ≠ 0) :
    natToChars n = ((Nat.digits 10 n).map digitToChar).reverse := by
  rw [natToChars, if_neg hn, toCharsAux_eq n n le_rfl]

theorem charVal_digitToChar (d : Nat) (hd : d < 10) : charVal (digitToChar d) = d := by
  interval_cases d <;> decide

theorem digitToChar_isDigit (d : Nat) (hd : d < 10) : (digitToChar d).isDigit = true := by
  interval_cases d <;> decide

theorem digitToChar_ne_colon (d : Nat) (hd : d < 10) : (digitToChar d == ':') = false := by
  interval_cases d <;> decide

theorem digitToChar_not_ws (d : Nat) (hd : d < 10) : (digitToChar d).isWhitespace = false := by
  interval_cases d <;> decide

theorem mem_natToChars (n : Nat) (c : Char) (hc : c ∈ natToChars n) :
    ∃ d, d < 10 ∧ c = digitToChar d := by
  by_cases hn : n = 0
  · subst hn
    simp only [natToChars, if_true, List.mem_singleton, reduceIte] at hc
    exact ⟨0, by norm_num, by rw [hc]; decide⟩
  · rw [natToChars_eq n hn] at hc
    rw [List.mem_reverse, List.mem_map] at hc
    obtain ⟨d, hd, rfl⟩ := hc
    exact ⟨d, Nat.digits_lt_base (by norm_num) hd, rfl⟩

theorem dropWhile_eq_self_of (p : Char → Bool) (l : List Char)
    (h : ∀ c ∈ l, p c = false) : l.dropWhile p = l := by
  cases l with
  | nil => rfl
  | cons a l => simp [List.dropWhile_cons, h a (List.mem_cons_self a l)]

theorem pyStrip_eq_self (l : List Char) (h : ∀ c ∈ l, c.isWhitespace = false) :
    pyStrip l = l := by
  rw [pyStrip, dropWhile_eq_self_of _ _ h,
    dropWhile_eq_self_of _ _ (fun c hc => h c (List.mem_reverse.mp hc)), List.reverse_reverse]

theorem takeWhile_append_colon (l1 l2 : List Char)
    (h : ∀ c ∈ l1, (c == ':') = false) :
    (l1 ++ ':' :: l2).takeWhile (fun c => !(c == ':')) = l1 := by
  induction l1 with
  | nil => simp [List.takeWhile_cons]
  | cons a l1 ih =>
    simp only [List.cons_append, List.takeWhile_cons, h a (List.mem_cons_self a l1),
      Bool.not_false, if_true]
    rw [ih (fun c hc => h c (List.mem_cons_of_mem a hc))]

theorem foldr_eq_ofDigits (L : List Nat) (h : ∀ d ∈ L, d < 10) :
    L.foldr (fun d y => 10 * y + charVal (digitToChar d)) 0 = Nat.ofDigits 10 L := by
  induction L with
  | nil => simp [Nat.ofDigits]
  | cons d L ih =>
    rw [List.foldr_cons, ih (fun x hx => h x (List.mem_cons_of_mem d hx)),
      charVal_digitToChar d (h d (List.mem_cons_self d L)), Nat.ofDigits_cons]
    ring

theorem parseDigits_natToChars (n : Nat) : parseDigits (natToChars n) = some n := by
  by_cases hn : n = 0
  · subst hn; decide
  · have hne : natToChars n ≠ [] := by
      rw [natToChars_eq n hn]
      simp [Nat.digits_ne_nil_iff_ne_zero, hn]
    have hdig : (natToChars n).all Char.isDigit = true := by
      rw [List.all_eq_true]
      intro c hc
      obtain ⟨d, hd, rfl⟩ := mem_natToChars n c hc
      exact digitToChar_isDigit d hd
    rw [parseDigits, if_neg (by simpa [List.isEmpty_iff] using hne), if_pos hdig]
    rw [natToChars_eq n hn, List.foldl_reverse, List.foldr_map,
      foldr_eq_ofDigits _ (fun d hd => Nat.digits_lt_base (by norm_num) hd),
      Nat.ofDigits_digits]

/-- Claim C6: encoding a record as the string `<clockValue>:<senderId>` and
then decoding it (split on `':'`, parse the first field) recovers the clock
value exactly, for all non-negative integer clock values and sender ids; the
`(17, 2)` instance is the special case `c = 17`, `mid = 2`. -/
theorem decodeClock_encodeRecord (c mid : Nat) : decodeClock (encodeRecord c mid) = some c := by
  have hnws : ∀ x ∈ encodeRecord c mid, x.isWhitespace = false := by
    intro x hx
    rw [encodeRecord, List.mem_append, List.mem_cons] at hx
    rcases hx with hx | hx | hx
    · obtain ⟨d, hd, rfl⟩ := mem_natToChars c x hx
      exact digitToChar_not_ws d hd
    · subst hx; decide
    · obtain ⟨d, hd, rfl⟩ := mem_natToChars mid x hx
      exact digitToChar_not_ws d hd
  rw [decodeClock, pyStrip_eq_self _ hnws, encodeRecord, firstField,
    takeWhile_append_colon _ _ (fun x hx => by
      obtain ⟨d, hd, rfl⟩ := mem_natToChars c x hx
      exact digitToChar_ne_colon d hd)]
  exact parseDigits_natToChars c

/-! ### Simulation-loop lemmas -/

theorem log_event_logicalClock (k : EventKind) (ql : Option Nat) (st : MachineState) :
    (log_event k ql st).logicalClock = st.logicalClock := rfl

theorem log_event_log (k : EventKind) (ql : Option Nat) (st : MachineState) :
    (log_event k ql st).log = st.log ++ [⟨k, st.logicalClock, ql⟩] := rfl

theorem tick_cons (r choice : Nat) (st : MachineState) (v : Nat) (rest : List Nat)
    (hq : st.msgQueue = v :: rest) :
    tick r choice st =
      log_event .RECEIVE (some rest.length)
        { st with logicalClock := Clock.receive st.logicalClock v, msgQueue := rest } := by
  unfold tick
  rw [hq]

theorem foldl_receive_le (vs : List Nat) : ∀ c : Nat, c ≤ vs.foldl Clock.receive c := by
  induction vs with
  | nil => intro c; exact le_rfl
  | cons v vs ih =>
    intro c
    refine le_trans ?_ (ih (Clock.receive c v))
    simp only [Clock.receive]
    omega

theorem tick_clock_empty (r choice : Nat) (st : MachineState) (hq : st.msgQueue = []) :
    (tick r choice st).logicalClock = st.logicalClock + 1 := by
  unfold tick
  rw [hq]
  repeat' split
  all_goals first | rfl | simp_all

theorem tick_clock_lt (r choice : Nat) (st : MachineState) :
    st.logicalClock < (tick r choice st).logicalClock := by
  cases hq : st.msgQueue with
  | nil => rw [tick_clock_empty r choice st hq]; omega
  | cons v rest =>
    rw [tick_cons r choice st v rest hq, log_event_logicalClock]
    simp only [Clock.receive]
    omega

theorem runTicks_clock_le (draws : List (Nat × Nat)) :
    ∀ st : MachineState, st.logicalClock ≤ (runTicks draws st).logicalClock := by
  induction draws with
  | nil => intro st; exact le_rfl
  | cons d draws ih =>
    intro st
    exact le_trans (le_of_lt (tick_clock_lt d.1 d.2 st)) (ih (tick d.1 d.2 st))

theorem shutdown_logicalClock (st : MachineState) :
    (shutdown st).logicalClock = st.logicalClock := rfl

theorem tick_log_shape (r choice : Nat) (st : MachineState) :
    ∃ rec : LogRecord, (tick r choice st).log = st.log ++ [rec] ∧
      (rec.kind == EventKind.SHUTDOWN) = false := by
  unfold tick
  repeat' split
  all_goals exact ⟨_, rfl, rfl⟩

theorem runTicks_shutdownCount (draws : List (Nat × Nat)) :
    ∀ st : MachineState, shutdownCount (runTicks draws st).log = shutdownCount st.log := by
  induction draws with
  | nil => intro st; rfl
  | cons d draws ih =>
    intro st
    obtain ⟨rec, heq, hk⟩ := tick_log_shape d.1 d.2 st
    show shutdownCount (runTicks draws (tick d.1 d.2 st)).log = _
    rw [ih (tick d.1 d.2 st), heq, shutdownCount, List.filter_append]
    simp [shutdownCount, hk]

/-! ### Claim theorems -/

/-- Claim C1: `Clock.receive c v = max c v + 1`, a pure function of the stored
value; the result is strictly greater than both the prior clock `c` and the
received value `v` (hence non-decreasing across any sequence of receive
calls, stated as the `foldl` bound). -/
theorem clock_receive_spec (c v : Nat) :
    Clock.receive c v = max c v + 1 ∧
    c < Clock.receive c v ∧
    v < Clock.receive c v ∧
    ∀ vs : List Nat, c ≤ vs.foldl Clock.receive c := by
  refine ⟨rfl, ?_, ?_, fun vs => foldl_receive_le vs c⟩ <;> (simp only [Clock.receive]; omega)

/-- Claim C2: the logical clock (a `Nat`, mutated only through `tick`) grows by
exactly 1 on every local event (any tick with an empty inbound queue, i.e.
every SEND(1)/SEND(2)/SEND(3)/INTERNAL branch), strictly increases on every
tick including processed receives, never decreases over an entire run, and
`Clock.advanceLocal` yields `current + 1` with iterates forming the strictly
increasing sequence `c + n`. -/
theorem logical_clock_invariant (st : MachineState) (r choice : Nat) :
    (st.msgQueue = [] → (tick r choice st).logicalClock = st.logicalClock + 1) ∧
    st.logicalClock < (tick r choice st).logicalClock ∧
    (∀ draws : List (Nat × Nat), st.logicalClock ≤ (run draws st).logicalClock) ∧
    Clock.advanceLocal st.logicalClock = st.logicalClock + 1 ∧
    (∀ c n : Nat, Clock.advanceLocal^[n] c = c + n) := by
  refine ⟨fun hq => tick_clock_empty r choice st hq, tick_clock_lt r choice st,
    fun draws => ?_, rfl, fun c n => ?_⟩
  · rw [run, shutdown_logicalClock]
    exact runTicks_clock_le draws st
  · induction n with
    | zero => rfl
    | succ n ih =>
      rw [Function.iterate_succ_apply', ih, Clock.advanceLocal]
      omega

theorem logical_clock_invariant_witness :
    (tick 5 0 stA).logicalClock = stA.logicalClock + 1 :=
  (logical_clock_invariant stA 5 0).1 rfl

/-- Claim C3: on a tick whose queue check finds a pending record, exactly one
record is dequeued, `Clock.receive` is applied to its value, one RECEIVE log
record is emitted carrying the post-update clock and the remaining queue
depth, and no send or internal action happens (peer sockets, error count and
the rest of the log are untouched). -/
theorem tick_receive_spec (st : MachineState) (r choice v : Nat) (rest : List Nat)
    (hq : st.msgQueue = v :: rest) :
    (tick r choice st).msgQueue = rest ∧
    (tick r choice st).logicalClock = Clock.receive st.logicalClock v ∧
    (tick r choice st).log =
      st.log ++ [⟨EventKind.RECEIVE, Clock.receive st.logicalClock v, some rest.length⟩] ∧
    (tick r choice st).peerSockets = st.peerSockets ∧
    (tick r choice st).errors = st.errors := by
  rw [tick_cons r choice st v rest hq]
  exact ⟨rfl, rfl, rfl, rfl, rfl⟩

theorem tick_receive_spec_witness :
    (tick 4 0 stB).msgQueue = [] ∧
    (tick 4 0 stB).logicalClock = Clock.receive stB.logicalClock 7 ∧
    (tick 4 0 stB).log =
      stB.log ++ [⟨EventKind.RECEIVE, Clock.receive stB.logicalClock 7, some 0⟩] ∧
    (tick 4 0 stB).peerSockets = stB.peerSockets ∧
    (tick 4 0 stB).errors = stB.errors :=
  tick_receive_spec stB 4 0 7 [] rfl

/-- Claim C4: for every configured peer other than the machine itself, the
connect loop retries up to the fixed bound of 5 attempts; a peer whose first
two attempts fail but whose third succeeds is connected on attempt 3 and is in
the usable outbound-connection set, while a peer that never listens is absent
from the set after the 5 bounded attempts, with `connect_to_peers` still
completing normally (the exceptions are caught, never propagated). -/
theorem connect_retry_spec (selfHost : String) (selfPort : Nat)
    (env : String × Nat → Nat → Bool) (peers : List (String × Nat)) (p : String × Nat)
    (hmem : p ∈ peers) (hself : (p.1 == selfHost && p.2 == selfPort) = false) :
    (env p 1 = false → env p 2 = false → env p 3 = true →
      tryConnect (env p) = some 3 ∧ p ∈ connect_to_peers selfHost selfPort env peers) ∧
    ((∀ k, env p k = false) →
      tryConnect (env p) = none ∧ p ∉ connect_to_peers selfHost selfPort env peers) := by
  have hlist : attemptNumbers = [1, 2, 3, 4, 5] := by decide
  constructor
  · intro h1 h2 h3
    have htc : tryConnect (env p) = some 3 := by
      rw [tryConnect, hlist]
      simp [List.find?, h1, h2, h3]
    refine ⟨htc, ?_⟩
    rw [connect_to_peers, List.mem_filter]
    exact ⟨hmem, by rw [hself, htc]; rfl⟩
  · intro hnever
    have htc : tryConnect (env p) = none := by
      rw [tryConnect, hlist]
      simp [List.find?, hnever 1, hnever 2, hnever 3, hnever 4, hnever 5]
    refine ⟨htc, ?_⟩
    rw [connect_to_peers, List.mem_filter]
    rintro ⟨-, hsat⟩
    rw [hself, htc] at hsat
    exact Bool.noConfusion hsat

theorem connect_retry_spec_witness :
    (tryConnect (envLate peerA) = some 3 ∧
      peerA ∈ connect_to_peers "127.0.0.1" 5001 envLate [peerA]) ∧
    (tryConnect (envNever peerA) = none ∧
      peerA ∉ connect_to_peers "127.0.0.1" 5001 envNever [peerA]) :=
  ⟨(connect_retry_spec "127.0.0.1" 5001 envLate [peerA] peerA (by decide) (by decide)).1
      rfl rfl rfl,
    (connect_retry_spec "127.0.0.1" 5001 envNever [peerA] peerA (by decide) (by decide)).2
      (fun _ => rfl)⟩

/-- Claim C5 counterexample: a merged read (two sends delivered in one `recv`)
does not abort the Receive Worker — the first field `17` parses, so the worker
pushes 17 and keeps reading, then exits via the clean peer-closed path, not
the decode-error path. -/
theorem receive_worker_merged_read_not_aborted :
    receive_messages [mergedRead, ([] : List Char)] =
      some ⟨[17], WorkerExit.peerClosed, 1⟩ := by decide

/-- Claim C5 (amended): whenever the Receive Worker's loop terminates, it
closes its own connection end exactly once; it terminates cleanly on a
zero-length read; it aborts with a decode error exactly on a read whose first
field fails to parse as a number (e.g. a truncated read starting mid-record);
and a read whose first field does parse — including a merged read holding two
records — is pushed as that first value and the loop simply continues. -/
theorem receive_worker_spec (reads : List (List Char)) :
    (∀ res, receive_messages reads = some res → res.closes = 1) ∧
    receive_messages (([] : List Char) :: reads) = some ⟨[], .peerClosed, 1⟩ ∧
    (∀ data, data.isEmpty = false → decodeClock data = none →
      receive_messages (data :: reads) = some ⟨[], .decodeError, 1⟩) ∧
    (∀ data v, data.isEmpty = false → decodeClock data = some v →
      receive_messages (data :: reads) =
        (receive_messages reads).map (fun res => ⟨v :: res.pushed, res.exit, res.closes⟩)) := by
  refine ⟨?_, rfl, fun data h1 h2 => ?_, fun data v h1 h2 => ?_⟩
  · induction reads with
    | nil => intro res h; exact Option.noConfusion h
    | cons data rest ih =>
      intro res h
      rw [receive_messages] at h
      by_cases he : data.isEmpty
      · rw [if_pos he] at h
        cases h
        rfl
      · rw [if_neg he] at h
        cases hd : decodeClock data with
        | none =>
          rw [hd] at h
          cases h
          rfl
        | some v =>
          rw [hd] at h
          cases hr : receive_messages rest with
          | none => rw [hr] at h; exact Option.noConfusion h
          | some res1 =>
            rw [hr] at h
            cases h
            exact ih res1 hr
  · rw [receive_messages, if_neg (by simp [h1]), h2]
  · rw [receive_messages, if_neg (by simp [h1]), h2]
    cases receive_messages reads <;> rfl

theorem receive_worker_spec_witness :
    receive_messages [[':', '2']] = some ⟨[], WorkerExit.decodeError, 1⟩ :=
  (receive_worker_spec []).2.2.1 [':', '2'] rfl (by decide)

theorem tick_one_eq (choice : Nat) (st : MachineState) (hq : st.msgQueue = []) :
    tick 1 choice st =
      log_event .SEND1 none
        (if st.peerSockets.isEmpty then { st with logicalClock := st.logicalClock + 1 }
        else
          { st with
            logicalClock := st.logicalClock + 1
            peerSockets := (sendAt (st.logicalClock + 1) st.machineId
              (choice % st.peerSockets.length) st.peerSockets st.errors).1
            errors := (sendAt (st.logicalClock + 1) st.machineId
              (choice % st.peerSockets.length) st.peerSockets st.errors).2 }) := by
  unfold tick
  rw [hq]
  rfl

theorem tick_two_eq (choice : Nat) (st : MachineState) (hq : st.msgQueue = []) :
    tick 2 choice st =
      log_event .SEND2 none
        (if 2 ≤ st.peerSockets.length then
          { st with
            logicalClock := st.logicalClock + 1
            peerSockets := (sendAt (st.logicalClock + 1) st.machineId
              (1 % st.peerSockets.length) st.peerSockets st.errors).1
            errors := (sendAt (st.logicalClock + 1) st.machineId
              (1 % st.peerSockets.length) st.peerSockets st.errors).2 }
        else if st.peerSockets.isEmpty then { st with logicalClock := st.logicalClock + 1 }
        else
          { st with
            logicalClock := st.logicalClock + 1
            peerSockets := (sendAt (st.logicalClock + 1) st.machineId
              0 st.peerSockets st.errors).1
            errors := (sendAt (st.logicalClock + 1) st.machineId
              0 st.peerSockets st.errors).2 }) := by
  unfold tick
  rw [hq]
  rfl

theorem tick_three_eq (choice : Nat) (st : MachineState) (hq : st.msgQueue = []) :
    tick 3 choice st =
      log_event .SEND3 none
        { st with
          logicalClock := st.logicalClock + 1
          peerSockets := (sendAll (st.logicalClock + 1) st.machineId
            st.peerSockets st.errors).1
          errors := (sendAll (st.logicalClock + 1) st.machineId
            st.peerSockets st.errors).2 } := by
  unfold tick
  rw [hq]
  rfl

theorem sendAll_fst (clock mid : Nat) :
    ∀ (socks : List Socket) (errs : Nat),
      (sendAll clock mid socks errs).1 =
        socks.map (fun s =>
          if s.alive then { s with sent := s.sent ++ [encodeRecord clock mid] } else s) := by
  intro socks
  induction socks with
  | nil => intro errs; rfl
  | cons s rest ih =>
    intro errs
    rw [sendAll, List.map_cons]
    cases hs : s.alive <;> simp [send_message, hs, ih]

/-- Claim C7: on the SEND(2) branch (`r = 2`, empty queue) the clock advances
by 1 and a SEND(2) log record is always emitted; with at least two peer
connections the record goes to the second one (index 1, distinct from the
first), with exactly one it falls back to that single peer, and with none
nothing is sent. -/
theorem tick_send2_spec (st : MachineState) (choice : Nat) (hq : st.msgQueue = []) :
    (tick 2 choice st).logicalClock = st.logicalClock + 1 ∧
    (tick 2 choice st).log = st.log ++ [⟨EventKind.SEND2, st.logicalClock + 1, none⟩] ∧
    (∀ s0 s1 rest, st.peerSockets = s0 :: s1 :: rest → s1.alive = true →
      (tick 2 choice st).peerSockets =
        s0 :: { s1 with sent := s1.sent ++ [encodeRecord (st.logicalClock + 1) st.machineId] }
          :: rest) ∧
    (∀ s0, st.peerSockets = [s0] → s0.alive = true →
      (tick 2 choice st).peerSockets =
        [{ s0 with sent := s0.sent ++ [encodeRecord (st.logicalClock + 1) st.machineId] }]) ∧
    (st.peerSockets = [] → (tick 2 choice st).peerSockets = []) := by
  refine ⟨?_, ?_, fun s0 s1 rest hp halive => ?_, fun s0 hp halive => ?_, fun hp => ?_⟩
  · exact tick_clock_empty 2 choice st hq
  · rw [tick_two_eq choice st hq]
    repeat' split
    all_goals rfl
  · rw [tick_two_eq choice st hq, hp]
    rw [if_pos (by simp)]
    have hmod : 1 % (s0 :: s1 :: rest).length = 1 :=
      Nat.mod_eq_of_lt (by simp)
    rw [hmod]
    simp [log_event, sendAt, send_message, halive]
  · rw [tick_two_eq choice st hq, hp]
    rw [if_neg (by simp), if_neg (by simp)]
    simp [log_event, sendAt, send_message, halive]
  · rw [tick_two_eq choice st hq, hp]
    rw [if_neg (by simp), if_pos (by simp)]
    rfl

theorem tick_send2_spec_witness :
    (tick 2 0 stC).logicalClock = stC.logicalClock + 1 ∧
    (tick 2 0 stC).peerSockets =
      [liveSock, { liveSock with sent := [encodeRecord 1 1] }] :=
  ⟨(tick_send2_spec stC 0 rfl).1,
    by
      have h := (tick_send2_spec stC 0 rfl).2.2.1 liveSock liveSock [] rfl rfl
      rw [h]
      rfl⟩

/-- Claim C8: after the duration-bounded tick loop finishes, `run` performs the
shutdown: the log gains exactly one SHUTDOWN record, as its final entry; the
log file and server socket transition to closed, every peer socket transitions
to closed, and no tick follows (shutdown is the last step of `run`). -/
theorem run_shutdown_spec (st : MachineState) (draws : List (Nat × Nat))
    (h : shutdownCount st.log = 0) :
    shutdownCount (run draws st).log = 1 ∧
    (run draws st).log.getLast? =
      some ⟨EventKind.SHUTDOWN, (run draws st).logicalClock, none⟩ ∧
    (run draws st).logClosed = true ∧
    (run draws st).serverClosed = true ∧
    ∀ s ∈ (run draws st).peerSockets, s.closed = true := by
  have hticks : shutdownCount (runTicks draws st).log = 0 := by
    rw [runTicks_shutdownCount draws st, h]
  refine ⟨?_, ?_, rfl, rfl, fun s hs => ?_⟩
  · show shutdownCount ((runTicks draws st).log ++
      [⟨EventKind.SHUTDOWN, (runTicks draws st).logicalClock, none⟩]) = 1
    unfold shutdownCount at hticks ⊢
    rw [List.filter_append, List.length_append, hticks]
    rfl
  · show ((runTicks draws st).log ++
      [(⟨EventKind.SHUTDOWN, (runTicks draws st).logicalClock, none⟩ : LogRecord)]).getLast? =
        some ⟨EventKind.SHUTDOWN, (run draws st).logicalClock, none⟩
    rw [List.getLast?_concat]
    rfl
  · rw [run, shutdown] at hs
    simp only [List.mem_map] at hs
    obtain ⟨t, -, rfl⟩ := hs
    rfl

theorem run_shutdown_spec_witness :
    shutdownCount (run [(4, 0)] stA).log = 1 ∧
    (run [(4, 0)] stA).log.getLast? =
      some ⟨EventKind.SHUTDOWN, (run [(4, 0)] stA).logicalClock, none⟩ :=
  And.intro (run_shutdown_spec stA [(4, 0)] rfl).1 (run_shutdown_spec stA [(4, 0)] rfl).2.1

/-- Claim C9: a SEND(1) tick targeting a dead peer socket swallows the failure:
the clock still advances by 1, the SEND(1) log record is still emitted, the
peer socket list is completely unchanged (the dead peer stays available to
future random selection), one error is logged to stderr, and the clock value
and log are identical to what the same tick produces when that socket is
alive. -/
theorem send_failure_swallowed (st : MachineState) (choice : Nat) (s0 : Socket)
    (rest : List Socket) (hq : st.msgQueue = []) (hp : st.peerSockets = s0 :: rest)
    (hdead : s0.alive = false) (hchoice : choice % st.peerSockets.length = 0) :
    (tick 1 choice st).logicalClock = st.logicalClock + 1 ∧
    (tick 1 choice st).log = st.log ++ [⟨EventKind.SEND1, st.logicalClock + 1, none⟩] ∧
    (tick 1 choice st).peerSockets = s0 :: rest ∧
    (tick 1 choice st).errors = st.errors + 1 ∧
    (tick 1 choice { st with peerSockets := { s0 with alive := true } :: rest }).logicalClock
      = (tick 1 choice st).logicalClock ∧
    (tick 1 choice { st with peerSockets := { s0 with alive := true } :: rest }).log
      = (tick 1 choice st).log := by
  rw [hp] at hchoice
  have hlive : tick 1 choice { st with peerSockets := { s0 with alive := true } :: rest }
      = log_event .SEND1 none
        { st with
          logicalClock := st.logicalClock + 1
          peerSockets :=
            { s0 with
              alive := true
              sent := s0.sent ++ [encodeRecord (st.logicalClock + 1) st.machineId] } :: rest } := by
    rw [tick_one_eq choice { st with peerSockets := { s0 with alive := true } :: rest } hq]
    rw [if_neg (by simp)]
    have hc : choice % ({ s0 with alive := true } :: rest).length = 0 := by
      simpa using hchoice
    simp only [hc]
    simp [sendAt, send_message]
  have hdeadtick : tick 1 choice st
      = log_event .SEND1 none
        { st with
          logicalClock := st.logicalClock + 1
          peerSockets := s0 :: rest
          errors := st.errors + 1 } := by
    rw [tick_one_eq choice st hq, hp]
    rw [if_neg (by simp)]
    simp only [hchoice]
    simp [sendAt, send_message, hdead]
  rw [hlive, hdeadtick]
  exact ⟨rfl, rfl, rfl, rfl, rfl, rfl⟩

theorem send_failure_swallowed_witness :
    (tick 1 0 stD).logicalClock = stD.logicalClock + 1 ∧
    (tick 1 0 stD).log = stD.log ++ [⟨EventKind.SEND1, stD.logicalClock + 1, none⟩] ∧
    (tick 1 0 stD).peerSockets = deadSock :: [] ∧
    (tick 1 0 stD).errors = stD.errors + 1 ∧
    (tick 1 0 { stD with peerSockets := { deadSock with alive := true } :: [] }).logicalClock
      = (tick 1 0 stD).logicalClock ∧
    (tick 1 0 { stD with peerSockets := { deadSock with alive := true } :: [] }).log
      = (tick 1 0 stD).log :=
  send_failure_swallowed stD 0 deadSock [] rfl rfl rfl rfl

/-- Claim C10: on the SEND(3) broadcast branch (`r = 3`, empty queue) the clock
is incremented exactly once for the whole action — the final clock is the old
value plus 1 — and every live peer connection receives the identical encoded
record carrying that single post-increment value (dead sockets swallow the
send); the emitted SEND(3) record carries the same value. -/
theorem tick_send3_broadcast (st : MachineState) (choice : Nat) (hq : st.msgQueue = []) :
    (tick 3 choice st).logicalClock = st.logicalClock + 1 ∧
    (tick 3 choice st).peerSockets =
      st.peerSockets.map (fun s =>
        if s.alive then
          { s with sent := s.sent ++ [encodeRecord (st.logicalClock + 1) st.machineId] }
        else s) ∧
    (tick 3 choice st).log = st.log ++ [⟨EventKind.SEND3, st.logicalClock + 1, none⟩] := by
  rw [tick_three_eq choice st hq, sendAll_fst]
  exact ⟨rfl, rfl, rfl⟩

theorem tick_send3_broadcast_witness :
    (tick 3 0 stC).logicalClock = stC.logicalClock + 1 ∧
    (tick 3 0 stC).peerSockets =
      stC.peerSockets.map (fun s =>
        if s.alive then
          { s with sent := s.sent ++ [encodeRecord (stC.logicalClock + 1) stC.machineId] }
        else s) ∧
    (tick 3 0 stC).log = stC.log ++ [⟨EventKind.SEND3, stC.logicalClock + 1, none⟩] :=
  tick_send3_broadcast stC 0 rfl

end LamportSim
